import Mathlib

/-!
Verification of the tranche-coalescing pipeline of
`dataworks-corporate-storage-coalescence` (`coalescer/main.py`).

The pipeline is embedded shallowly:

* The object store is modelled by a behaviour oracle `StoreBehavior` that
  says, for each issued call, whether that call raises an exception.
* Every store-touching function returns, next to its Python return value,
  the list of `StoreEvent`s it issued, in program order.  Units of work
  submitted to the executor pool run concurrently in Python; the global
  trace below is the linearization that lists the units in submission
  order.  Per-unit event order (the only order the specification talks
  about) is preserved exactly.
* A store client is identified by a natural number; `s3_client` constructs
  a client, and the construction is recorded as a `StoreEvent.newClient`
  event.  The executor hands every submitted unit of work a fresh client
  identifier (its submission index), mirroring per-process construction.
* `utility.grouping` and `utility.s3` are not part of the repository
  snapshot; the three `utility.grouping` functions used by `main.py` are
  modelled from the specification and marked as such in their doc comments.
-/

/-- One object listing entry.  The specification's ObjectDescriptor carries a
logical topic (derived from the key), a partition index, the key and the byte
size; the key-to-topic/partition parsing (regular vs. manifest mode) is
abstracted into the `topic` and `partition` fields. -/
structure ObjectSummary where
  topic : String
  partition : Nat
  key : String
  size : Nat
deriving DecidableEq

/-- Behaviour oracle for the object store: whether a given merge
(`S3.coalesce_batch`) or delete (`S3.delete_batch`) call raises. -/
structure StoreBehavior where
  merge_fails : String → List ObjectSummary → Bool → Bool
  delete_fails : String → List ObjectSummary → Bool

/-- Store calls issued by the pipeline, tagged with the identity of the
client that issued them. -/
inductive StoreEvent where
  | newClient (client : Nat)
  | mergeBatch (client : Nat) (bucket : String) (batch : List ObjectSummary) (manifests : Bool)
  | deleteBatch (client : Nat) (bucket : String) (batch : List ObjectSummary)
deriving DecidableEq

/-- The client that an event belongs to. -/
def eventClient : StoreEvent → Nat
  | .newClient c => c
  | .mergeBatch c _ _ _ => c
  | .deleteBatch c _ _ => c

/-- `s3_client(localstack)` from `utility.s3`: constructs a store client.
Clients are modelled by their identity `cid`; the `use_localstack` flag only
selects endpoint configuration, which is outside the model. -/
def s3_client (use_localstack : Bool) (cid : Nat) : Nat := cid

/-- `coalesce_batch(s3, bucket, batch, manifests)` of `main.py`.

Python:
```
try:
    if batch and len(batch) > 1:
        s3.coalesce_batch(bucket, batch, manifests)
        s3.delete_batch(bucket, batch)
    else:
        print("Not processing batch of size 1")
    return True
except:
    ...
    return False
```
A call that raises is still an issued call and appears in the trace; the
exception aborts the remainder of the `try` block and is caught, giving
`False`.  A `None` batch takes the same `else` branch as an empty list
(both are falsy), so absent batches are represented by `[]`. -/
def coalesce_batch (st : StoreBehavior) (s3 : Nat) (bucket : String)
    (batch : List ObjectSummary) (manifests : Bool) : Bool × List StoreEvent :=
  if !batch.isEmpty && batch.length > 1 then
    if st.merge_fails bucket batch manifests then
      (false, [StoreEvent.mergeBatch s3 bucket batch manifests])
    else if st.delete_fails bucket batch then
      (false, [StoreEvent.mergeBatch s3 bucket batch manifests,
               StoreEvent.deleteBatch s3 bucket batch])
    else
      (true, [StoreEvent.mergeBatch s3 bucket batch manifests,
              StoreEvent.deleteBatch s3 bucket batch])
  else
    (true, [])

/-- `coalesce_partition(bucket, partition, use_localstack, manifests)`: one
unit of work of the byPartition strategy.  It constructs its own store
client and then coalesces the partition's batches sequentially, in order.
`cid` is the fresh client identity the model assigns to this unit. -/
def coalesce_partition (st : StoreBehavior) (cid : Nat) (bucket : String)
    (partition : List (List ObjectSummary)) (use_localstack : Bool) (manifests : Bool) :
    List Bool × List StoreEvent :=
  let client := s3_client use_localstack cid
  let outcomes := partition.map fun batch => coalesce_batch st client bucket batch manifests
  (outcomes.map Prod.fst, StoreEvent.newClient client :: outcomes.flatMap Prod.snd)

/-- `coalesce_batch_parallel(bucket, batch, manifests, use_localstack)`: one
unit of work of the byBatch strategy; constructs its own store client. -/
def coalesce_batch_parallel (st : StoreBehavior) (cid : Nat) (bucket : String)
    (batch : List ObjectSummary) (manifests : Bool) (use_localstack : Bool) :
    Bool × List StoreEvent :=
  let client := s3_client use_localstack cid
  let r := coalesce_batch st client bucket batch manifests
  (r.1, StoreEvent.newClient client :: r.2)

example : coalesce_batch ⟨fun _ _ _ => false, fun _ _ => false⟩ 0 "b" [] false = (true, []) := by
  decide

/-- The value a completed executor future yields: a byBatch unit yields one
batch outcome, a byPartition unit yields the list of outcomes of its
partition's batches. -/
inductive UnitResult where
  | one (b : Bool)
  | many (bs : List Bool)
deriving DecidableEq

/-- The batch outcomes contained in one unit result. -/
def unit_bools : UnitResult → List Bool
  | .one b => [b]
  | .many bs => bs

/-- The byBatch branch of `coalesce_topic` (`parallelise_batches` truthy).

Python iterates the topic's partitions but executes `return futures` inside
the first loop iteration, so only the first partition's batches are ever
submitted; with an empty topic the loop body never runs and the function
falls through, returning `None`.  Each submitted unit is one batch, handed a
fresh client identity (its submission index). -/
def coalesce_topic_byBatch (st : StoreBehavior) (bucket : String)
    (batched_topic : List (Nat × List (List ObjectSummary)))
    (manifests : Bool) (use_localstack : Bool) :
    Option (List UnitResult) × List StoreEvent :=
  match batched_topic with
  | [] => (none, [])
  | (_, batches) :: _ =>
      let units := batches.enum.map fun jb =>
        coalesce_batch_parallel st jb.1 bucket jb.2 manifests use_localstack
      (some (units.map fun u => UnitResult.one u.1), units.flatMap Prod.snd)

/-- The byPartition branch of `coalesce_topic` (`parallelise_batches`
falsy): one unit of work per partition, in dict order, each handed a fresh
client identity (its submission index). -/
def coalesce_topic_byPartition (st : StoreBehavior) (bucket : String)
    (batched_topic : List (Nat × List (List ObjectSummary)))
    (use_localstack : Bool) (manifests : Bool) :
    Option (List UnitResult) × List StoreEvent :=
  let units := batched_topic.enum.map fun jp =>
    coalesce_partition st jp.1 bucket jp.2.2 use_localstack manifests
  (some (units.map fun u => UnitResult.many u.1), units.flatMap Prod.snd)

/-- `coalesce_topic(bucket, batched_topic, threads, use_multiprocessor,
use_localstack, manifests, parallelise_batches)`.  A batched topic (a dict
partition -> list of batches) is an association list in insertion order.
`threads` and `use_multiprocessor` only size and choose the worker pool
(`pooled_executor`), which affects scheduling, not the set of submitted
units or their per-unit behaviour; the executor waits (`wait(futures)` and
`shutdown`) for every submitted unit, so the returned futures are all
completed. -/
def coalesce_topic (st : StoreBehavior) (bucket : String)
    (batched_topic : List (Nat × List (List ObjectSummary)))
    (threads : Nat) (use_multiprocessor : Bool) (use_localstack : Bool)
    (manifests : Bool) (parallelise_batches : Bool) :
    Option (List UnitResult) × List StoreEvent :=
  if parallelise_batches then
    coalesce_topic_byBatch st bucket batched_topic manifests use_localstack
  else
    coalesce_topic_byPartition st bucket batched_topic use_localstack manifests

/-- Modelled from the spec: `utility.grouping` is not in the repository
snapshot.  Inserts a summary at the end of its partition's group, keeping
first-appearance order of partitions. -/
def upsertPartition (ps : List (Nat × List ObjectSummary)) (p : Nat) (s : ObjectSummary) :
    List (Nat × List ObjectSummary) :=
  match ps with
  | [] => [(p, [s])]
  | (q, l) :: rest =>
      if q = p then (q, l ++ [s]) :: rest else (q, l) :: upsertPartition rest p s

/-- Modelled from the spec: inserts a summary under its topic and partition,
keeping first-appearance order of topics. -/
def upsertTopic (g : List (String × List (Nat × List ObjectSummary)))
    (t : String) (p : Nat) (s : ObjectSummary) :
    List (String × List (Nat × List ObjectSummary)) :=
  match g with
  | [] => [(t, [(p, [s])])]
  | (u, ps) :: rest =>
      if u = t then (u, upsertPartition ps p s) :: rest else (u, ps) :: upsertTopic rest t p s

/-- Modelled from the spec: `utility.grouping.grouped_object_summaries`
(§4.1).  `partition = -1` routes every descriptor to its natural partition;
a non-negative selector keeps only that partition's descriptors.  Output
order is input order.  `manifests` swaps the key-parsing rule, which is
abstracted into the `topic`/`partition` fields of `ObjectSummary`, so it
does not appear in the grouping algorithm itself. -/
def grouped_object_summaries (summaries : List ObjectSummary) (partition : Int)
    (manifests : Bool) : List (String × List (Nat × List ObjectSummary)) :=
  let selected :=
    if partition = -1 then summaries
    else summaries.filter fun s => (s.partition : Int) = partition
  selected.foldl (fun g s => upsertTopic g s.topic s.partition s) []

/-- Modelled from the spec: the per-partition batching loop of
`utility.grouping.batched_object_summaries` (§4.2).  Accumulates descriptors
in order; closes the current batch when it already holds `files` descriptors
(`files <= 0` meaning unbounded), or when it is non-empty and adding the
next descriptor would push the cumulative size past `size` (`size <= 0`
meaning unbounded). -/
def batch_partition (size : Int) (files : Int) (l : List ObjectSummary) :
    List (List ObjectSummary) :=
  let step := fun (acc : List (List ObjectSummary) × List ObjectSummary × Int) s =>
    let countFull : Bool := files > 0 && (acc.2.1.length : Int) ≥ files
    let sizeFull : Bool := size > 0 && !acc.2.1.isEmpty && acc.2.2 + (s.size : Int) > size
    if countFull || sizeFull then
      (acc.1 ++ [acc.2.1], [s], (s.size : Int))
    else
      (acc.1, acc.2.1 ++ [s], acc.2.2 + (s.size : Int))
  let r := l.foldl step ([], [], 0)
  if r.2.1.isEmpty then r.1 else r.1 ++ [r.2.1]

/-- Modelled from the spec: `utility.grouping.batched_object_summaries`
(§4.2) applies the batching loop to every partition of every topic. -/
def batched_object_summaries (size : Int) (files : Int)
    (grouped : List (String × List (Nat × List ObjectSummary))) :
    List (String × List (Nat × List (List ObjectSummary))) :=
  grouped.map fun tp => (tp.1, tp.2.map fun pl => (pl.1, batch_partition size files pl.2))

/-- Modelled from the spec: the Result Aggregator contract `aggregate`
(§4.5).  In both modes the verdict is the same logical reduction — true iff
every batch outcome succeeded — with byPartition unit results flattened
first; `strict` records only the shape of the outcomes. -/
def aggregate (outcomes : List UnitResult) (strict : Bool) : Bool :=
  (outcomes.flatMap unit_bools).all id

/-- Modelled from the spec: `utility.grouping.successful_result` as called
by `coalesce_tranche` on one entry per topic.  Topic entries are flattened
into one outcome sequence; a `none` entry (a byBatch call on a topic with
no partitions, which Python could only answer with `None`, unreachable from
grouping output) contributes no outcomes. -/
def successful_result (results : List (Option (List UnitResult))) (strict : Bool) : Bool :=
  aggregate (results.flatMap fun r => r.getD []) strict

/-- The command-line configuration built by `command_line_args` in
`main.py`, restricted to the arguments the pipeline itself reads, plus
`parallelise_batches` (the `-c` flag, which `main.py` parses but never
reads).  `bucket`/`size`/`files`/`partition`/`threads` keep their argparse
types; the `-p` key-prefix and `-u` page-size arguments only parameterise
the external object lister and are outside the model. -/
structure Args where
  manifests : Bool
  bucket : String
  parallelise_batches : Bool
  files : Int
  localstack : Bool
  multiprocessor : Bool
  partition : Int
  size : Int
  threads : Nat
deriving DecidableEq

/-- The per-topic executor calls made by `coalesce_tranche`: group, batch,
then one `coalesce_topic` call per topic, with
`parallelise_batches := args.partition != -1`. -/
def tranche_topic_results (st : StoreBehavior) (args : Args)
    (summaries : List ObjectSummary) :
    List (Option (List UnitResult) × List StoreEvent) :=
  let grouped := grouped_object_summaries summaries args.partition args.manifests
  let batched := batched_object_summaries args.size args.files grouped
  batched.map fun tb =>
    coalesce_topic st args.bucket tb.2 args.threads args.multiprocessor
      args.localstack args.manifests (args.partition != -1)

/-- `coalesce_tranche(args, summaries)`: the tranche verdict
`successful_result(results, args.partition != -1)` together with the
tranche's store trace. -/
def coalesce_tranche (st : StoreBehavior) (args : Args)
    (summaries : List ObjectSummary) : Bool × List StoreEvent :=
  let results := tranche_topic_results st args summaries
  (successful_result (results.map Prod.fst) (args.partition != -1),
   results.flatMap Prod.snd)

/-- The `main` driver's exit status: one `coalesce_tranche` per lister page,
`exit(0 if all(results) else 1)`. -/
def main_exit_code (st : StoreBehavior) (args : Args)
    (pages : List (List ObjectSummary)) : Nat :=
  let results := pages.map fun summaries => (coalesce_tranche st args summaries).1
  if results.all id then 0 else 1

/-- The batches whose merge call was issued, in trace order. -/
def merged_batches (trace : List StoreEvent) : List (List ObjectSummary) :=
  trace.filterMap fun e =>
    match e with
    | .mergeBatch _ _ batch _ => some batch
    | _ => none

/-- The client constructions issued, in trace order. -/
def clients_created (trace : List StoreEvent) : List Nat :=
  trace.filterMap fun e =>
    match e with
    | .newClient c => some c
    | _ => none

/-- A store behaviour in which no call ever raises. -/
def stNoFail : StoreBehavior := ⟨fun _ _ _ => false, fun _ _ => false⟩

/-- A store behaviour in which every call raises. -/
def stAllFail : StoreBehavior := ⟨fun _ _ _ => true, fun _ _ => true⟩

/-- Sample listing entries, two per partition of the topic "t". -/
def o1 : ObjectSummary := ⟨"t", 0, "k1", 10⟩

def o2 : ObjectSummary := ⟨"t", 0, "k2", 20⟩

def o3 : ObjectSummary := ⟨"t", 1, "k3", 30⟩

def o4 : ObjectSummary := ⟨"t", 1, "k4", 40⟩

/-- The argparse defaults: every partition, byPartition dispatch. -/
def argsAll : Args :=
  ⟨false, "corporate-data", false, 10, false, false, -1, 100000, 0⟩

/-- Targeting the single partition 0: byBatch dispatch. -/
def argsOne : Args :=
  ⟨false, "corporate-data", false, 10, false, false, 0, 100000, 0⟩

example : (coalesce_tranche stNoFail argsAll [o1, o2, o3, o4]).1 = true := by decide

example : (coalesce_tranche stAllFail argsAll [o1, o2, o3, o4]).1 = false := by decide

example : (coalesce_tranche stAllFail argsOne [o1, o3]).1 = true := by decide

/-- The Python guard `batch and len(batch) > 1` holds exactly on batches of
length at least 2. -/
theorem coalesce_batch_guard (batch : List ObjectSummary) :
    (!batch.isEmpty && decide (batch.length > 1)) = true ↔ 1 < batch.length := by
  cases batch with
  | nil => simp
  | cons a l => simp [List.isEmpty]

/-- Claim C2: a batch of size at most 1 (the empty and the absent batch
included) issues no store call at all and yields success. -/
theorem spec_c2_singleton_noop (st : StoreBehavior) (s3 : Nat) (bucket : String)
    (batch : List ObjectSummary) (manifests : Bool) (h : batch.length ≤ 1) :
    coalesce_batch st s3 bucket batch manifests = (true, []) := by
  have hg : (!batch.isEmpty && decide (batch.length > 1)) = false := by
    rw [Bool.eq_false_iff]
    intro hc
    exact absurd (coalesce_batch_guard batch |>.mp hc) (by omega)
  simp [coalesce_batch, hg]

/-- Witness for C2: a one-element batch against the always-raising store. -/
theorem spec_c2_singleton_noop_witness :
    [o1].length ≤ 1 ∧ coalesce_batch stAllFail 0 "corporate-data" [o1] false = (true, []) :=
  ⟨by decide, spec_c2_singleton_noop stAllFail 0 "corporate-data" [o1] false (by decide)⟩

/-- Claim C3: `coalesce_batch` never propagates a store exception: it
returns `false` exactly when one of its issued merge/delete calls raises,
and `true` otherwise; and within `coalesce_partition` each sibling batch's
outcome is a function of that batch alone, so one batch's failure leaves
the siblings' outcomes unchanged. -/
theorem spec_c3_exception_boundary (st : StoreBehavior) (s3 : Nat) (bucket : String)
    (batch : List ObjectSummary) (manifests : Bool) :
    ((coalesce_batch st s3 bucket batch manifests).1 = false ↔
      (1 < batch.length ∧
        (st.merge_fails bucket batch manifests = true ∨
          (st.merge_fails bucket batch manifests = false ∧
            st.delete_fails bucket batch = true)))) ∧
    ∀ (cid : Nat) (partition : List (List ObjectSummary)) (ls : Bool),
      (coalesce_partition st cid bucket partition ls manifests).1 =
        partition.map fun b => (coalesce_batch st (s3_client ls cid) bucket b manifests).1 := by
  constructor
  · by_cases hl : 1 < batch.length
    · have hg := (coalesce_batch_guard batch).mpr hl
      have hne : batch ≠ [] := List.ne_nil_of_length_pos (by omega)
      cases hmf : st.merge_fails bucket batch manifests with
      | true => simp [coalesce_batch, hg, hmf, hl, hne]
      | false =>
          cases hdf : st.delete_fails bucket batch with
          | true => simp [coalesce_batch, hg, hmf, hdf, hl, hne]
          | false => simp [coalesce_batch, hg, hmf, hdf, hne]
    · have hg : (!batch.isEmpty && decide (batch.length > 1)) = false := by
        rw [Bool.eq_false_iff]
        exact fun hc => hl (coalesce_batch_guard batch |>.mp hc)
      simp [coalesce_batch, hg, hl]
  · intro cid partition ls
    simp [coalesce_partition, List.map_map, Function.comp]

/-- Witness for C3: with a store whose merge call raises, a two-element
batch fails while its one-element sibling in the same partition still
succeeds. -/
theorem spec_c3_exception_boundary_witness :
    ((coalesce_batch stAllFail 0 "corporate-data" [o1, o2] false).1 = false) ∧
    (coalesce_partition stAllFail 0 "corporate-data" [[o1, o2], [o3]] false false).1 =
      [false, true] := by
  constructor
  · exact (spec_c3_exception_boundary stAllFail 0 "corporate-data" [o1, o2] false).1.mpr
      ⟨by decide, Or.inl (by decide)⟩
  · rw [(spec_c3_exception_boundary stAllFail 0 "corporate-data" [] false).2 0
      [[o1, o2], [o3]] false]
    decide

/-- Claim C7: on a batch of size at least 2, a delete of the batch's source
objects is issued only after the merged object's write has completed: if the
delete call appears in the trace then the trace is exactly the merge call
followed by the delete call, and the merge call did not raise. -/
theorem spec_c7_merge_before_delete (st : StoreBehavior) (s3 : Nat) (bucket : String)
    (batch : List ObjectSummary) (manifests : Bool) (h2 : 2 ≤ batch.length)
    (hmem : StoreEvent.deleteBatch s3 bucket batch ∈
      (coalesce_batch st s3 bucket batch manifests).2) :
    (coalesce_batch st s3 bucket batch manifests).2 =
      [StoreEvent.mergeBatch s3 bucket batch manifests,
       StoreEvent.deleteBatch s3 bucket batch] ∧
    st.merge_fails bucket batch manifests = false := by
  have hg := (coalesce_batch_guard batch).mpr (by omega)
  cases hmf : st.merge_fails bucket batch manifests with
  | true => simp [coalesce_batch, hg, hmf] at hmem
  | false =>
      cases hdf : st.delete_fails bucket batch with
      | true => simp [coalesce_batch, hg, hmf, hdf]
      | false => simp [coalesce_batch, hg, hmf, hdf]

/-- Witness for C7: a two-element batch whose delete call raises; the trace
still shows the merge completed before the delete was issued. -/
theorem spec_c7_merge_before_delete_witness :
    (coalesce_batch ⟨fun _ _ _ => false, fun _ _ => true⟩ 0 "corporate-data"
        [o1, o2] false).2 =
      [StoreEvent.mergeBatch 0 "corporate-data" [o1, o2] false,
       StoreEvent.deleteBatch 0 "corporate-data" [o1, o2]] ∧
    (StoreBehavior.merge_fails ⟨fun _ _ _ => false, fun _ _ => true⟩
      "corporate-data" [o1, o2] false) = false :=
  spec_c7_merge_before_delete ⟨fun _ _ _ => false, fun _ _ => true⟩ 0 "corporate-data"
    [o1, o2] false (by decide) (by decide)

/-- Every event issued by one `coalesce_batch` call carries the client it
was given. -/
theorem eventClient_coalesce_batch (st : StoreBehavior) (s3 : Nat) (bucket : String)
    (batch : List ObjectSummary) (manifests : Bool) :
    ∀ e ∈ (coalesce_batch st s3 bucket batch manifests).2, eventClient e = s3 := by
  intro e he
  unfold coalesce_batch at he
  split at he
  · split at he
    · simp at he
      subst he
      rfl
    · split at he <;> (simp at he; rcases he with rfl | rfl <;> rfl)
  · simp at he

/-- `coalesce_batch` never constructs a client. -/
theorem clients_created_coalesce_batch (st : StoreBehavior) (s3 : Nat) (bucket : String)
    (batch : List ObjectSummary) (manifests : Bool) :
    clients_created (coalesce_batch st s3 bucket batch manifests).2 = [] := by
  unfold coalesce_batch
  split
  · split
    · rfl
    · split <;> rfl
  · rfl

/-- A sequence of `coalesce_batch` calls sharing one client constructs no
client. -/
theorem clients_created_batch_run (st : StoreBehavior) (c : Nat) (bucket : String)
    (manifests : Bool) (l : List (List ObjectSummary)) :
    clients_created
      ((l.map fun b => coalesce_batch st c bucket b manifests).flatMap Prod.snd) = [] := by
  induction l with
  | nil => rfl
  | cons b t ih =>
      simp only [List.map_cons, List.flatMap_cons, clients_created, List.filterMap_append]
      simp only [clients_created] at ih
      rw [ih]
      have hb := clients_created_coalesce_batch st c bucket b manifests
      simp only [clients_created] at hb
      rw [hb]
      rfl

/-- One byPartition unit constructs exactly its own client. -/
theorem clients_created_coalesce_partition (st : StoreBehavior) (cid : Nat) (bucket : String)
    (partition : List (List ObjectSummary)) (ls manifests : Bool) :
    clients_created (coalesce_partition st cid bucket partition ls manifests).2 =
      [s3_client ls cid] := by
  simp only [coalesce_partition, clients_created, List.filterMap_cons]
  have h := clients_created_batch_run st (s3_client ls cid) bucket manifests partition
  simp only [clients_created] at h
  rw [h]

/-- One byBatch unit constructs exactly its own client. -/
theorem clients_created_coalesce_batch_parallel (st : StoreBehavior) (cid : Nat)
    (bucket : String) (batch : List ObjectSummary) (manifests ls : Bool) :
    clients_created (coalesce_batch_parallel st cid bucket batch manifests ls).2 =
      [s3_client ls cid] := by
  simp only [coalesce_batch_parallel, clients_created, List.filterMap_cons]
  have h := clients_created_coalesce_batch st (s3_client ls cid) bucket batch manifests
  simp only [clients_created] at h
  rw [h]

/-- The clients constructed by a run of byPartition units are exactly the
unit identities handed out, in submission order. -/
theorem clients_created_partition_units {α : Type} (st : StoreBehavior) (bucket : String)
    (ls manifests : Bool) (idx : α → Nat) (pt : α → List (List ObjectSummary)) :
    ∀ L : List α,
      clients_created
        ((L.map fun a => coalesce_partition st (idx a) bucket (pt a) ls manifests).flatMap
          Prod.snd) = L.map idx := by
  intro L
  induction L with
  | nil => rfl
  | cons jp t ih =>
      simp only [List.map_cons, List.flatMap_cons, clients_created, List.filterMap_append]
      simp only [clients_created] at ih
      rw [ih]
      have h := clients_created_coalesce_partition st (idx jp) bucket (pt jp) ls manifests
      simp only [clients_created] at h
      rw [h]
      rfl

/-- The clients constructed by a run of byBatch units are exactly the unit
identities handed out, in submission order. -/
theorem clients_created_batch_units {α : Type} (st : StoreBehavior) (bucket : String)
    (manifests ls : Bool) (idx : α → Nat) (bc : α → List ObjectSummary) :
    ∀ L : List α,
      clients_created
        ((L.map fun a => coalesce_batch_parallel st (idx a) bucket (bc a) manifests ls).flatMap
          Prod.snd) = L.map idx := by
  intro L
  induction L with
  | nil => rfl
  | cons jb t ih =>
      simp only [List.map_cons, List.flatMap_cons, clients_created, List.filterMap_append]
      simp only [clients_created] at ih
      rw [ih]
      have h := clients_created_coalesce_batch_parallel st (idx jb) bucket (bc jb) manifests ls
      simp only [clients_created] at h
      rw [h]
      rfl

/-- Claim C6: under the byPartition strategy, the executor submits exactly
one unit of work per partition of the topic (in dict order), each unit
coalesces its partition's batches sequentially in their given order on one
client, and the result returned after the wait contains the completed
outcome of every submitted unit. -/
theorem spec_c6_by_partition_units (st : StoreBehavior) (bucket : String)
    (bt : List (Nat × List (List ObjectSummary))) (threads : Nat)
    (mp ls man : Bool) :
    ((coalesce_topic st bucket bt threads mp ls man false).1 =
      some (bt.enum.map fun jp =>
        UnitResult.many (jp.2.2.map fun b =>
          (coalesce_batch st (s3_client ls jp.1) bucket b man).1))) ∧
    ((coalesce_topic st bucket bt threads mp ls man false).1.getD []).length =
      bt.length := by
  have h1 : (coalesce_topic st bucket bt threads mp ls man false).1 =
      some (bt.enum.map fun jp =>
        UnitResult.many (jp.2.2.map fun b =>
          (coalesce_batch st (s3_client ls jp.1) bucket b man).1)) := by
    simp [coalesce_topic, coalesce_topic_byPartition, coalesce_partition,
      List.map_map, Function.comp]
  refine ⟨h1, ?_⟩
  rw [h1]
  simp

/-- Claim C8: every unit of work — per-partition or per-batch — constructs
its own store client inside the unit (the unit's first store event is the
construction of its client, and every event the unit issues uses that
client), and the executor hands out pairwise distinct client identities:
under either strategy the clients constructed across a topic are exactly
`0, 1, ...`, one per submitted unit, with no sharing. -/
theorem spec_c8_fresh_client_per_unit (st : StoreBehavior) (cid : Nat)
    (bucket : String) (ls man : Bool) :
    (∀ partition : List (List ObjectSummary),
      (coalesce_partition st cid bucket partition ls man).2.head? =
        some (StoreEvent.newClient (s3_client ls cid)) ∧
      ∀ e ∈ (coalesce_partition st cid bucket partition ls man).2,
        eventClient e = s3_client ls cid) ∧
    (∀ batch : List ObjectSummary,
      (coalesce_batch_parallel st cid bucket batch man ls).2.head? =
        some (StoreEvent.newClient (s3_client ls cid)) ∧
      ∀ e ∈ (coalesce_batch_parallel st cid bucket batch man ls).2,
        eventClient e = s3_client ls cid) ∧
    (∀ (bt : List (Nat × List (List ObjectSummary))) (threads : Nat) (mp : Bool),
      clients_created (coalesce_topic st bucket bt threads mp ls man false).2 =
        List.range bt.length ∧
      clients_created (coalesce_topic st bucket bt threads mp ls man true).2 =
        List.range (match bt with | [] => 0 | p :: _ => p.2.length)) := by
  refine ⟨?_, ?_, ?_⟩
  · intro partition
    refine ⟨rfl, ?_⟩
    intro e he
    simp only [coalesce_partition, List.mem_cons] at he
    rcases he with rfl | he
    · rfl
    · rw [List.mem_flatMap] at he
      obtain ⟨o, ho, heo⟩ := he
      rw [List.mem_map] at ho
      obtain ⟨b, _, rfl⟩ := ho
      exact eventClient_coalesce_batch st (s3_client ls cid) bucket b man e heo
  · intro batch
    refine ⟨rfl, ?_⟩
    intro e he
    simp only [coalesce_batch_parallel, List.mem_cons] at he
    rcases he with rfl | he
    · rfl
    · exact eventClient_coalesce_batch st (s3_client ls cid) bucket batch man e he
  · intro bt threads mp
    constructor
    · have hsel : coalesce_topic st bucket bt threads mp ls man false =
          coalesce_topic_byPartition st bucket bt ls man := rfl
      rw [hsel]
      have h := clients_created_partition_units st bucket ls man Prod.fst
        (fun jp => jp.2.2) bt.enum
      simp only [coalesce_topic_byPartition]
      rw [h, List.enum_map_fst]
    · have hsel : coalesce_topic st bucket bt threads mp ls man true =
          coalesce_topic_byBatch st bucket bt man ls := rfl
      rw [hsel]
      cases bt with
      | nil => rfl
      | cons p t =>
          obtain ⟨pidx, batches⟩ := p
          have h := clients_created_batch_units st bucket man ls Prod.fst
            Prod.snd batches.enum
          simp only [coalesce_topic_byBatch]
          rw [h, List.enum_map_fst]

/-- Witness for C8: a concrete byPartition unit's first event constructs its
own client, identity 3. -/
theorem spec_c8_fresh_client_per_unit_witness :
    (coalesce_partition stNoFail 3 "corporate-data" [[o1, o2]] false false).2.head? =
      some (StoreEvent.newClient (s3_client false 3)) :=
  ((spec_c8_fresh_client_per_unit stNoFail 3 "corporate-data" false false).1
    [[o1, o2]]).1

/-- Claim C4: `coalesce_tranche` passes `args.partition != -1` as the
`parallelise_batches` flag, so every topic of the tranche is dispatched with
the byBatch strategy exactly when a single explicit partition is targeted,
and with the byPartition strategy exactly when all partitions are processed
(`partition = -1`). -/
theorem spec_c4_strategy_selection (st : StoreBehavior) (args : Args)
    (summaries : List ObjectSummary) :
    (args.partition ≠ -1 →
      tranche_topic_results st args summaries =
        (batched_object_summaries args.size args.files
          (grouped_object_summaries summaries args.partition args.manifests)).map
          fun tb => coalesce_topic_byBatch st args.bucket tb.2 args.manifests
            args.localstack) ∧
    (args.partition = -1 →
      tranche_topic_results st args summaries =
        (batched_object_summaries args.size args.files
          (grouped_object_summaries summaries args.partition args.manifests)).map
          fun tb => coalesce_topic_byPartition st args.bucket tb.2 args.localstack
            args.manifests) := by
  constructor
  · intro h
    have hflag : (args.partition != -1) = true := bne_iff_ne.mpr h
    simp only [tranche_topic_results, coalesce_topic, hflag, if_true]
  · intro h
    have hflag : (args.partition != -1) = false := bne_eq_false_iff_eq.mpr h
    simp only [tranche_topic_results, coalesce_topic, hflag, Bool.false_eq_true,
      if_false]

/-- Witness for C4: with partition 0 selected the tranche dispatches
byBatch; with the default partition -1 it dispatches byPartition. -/
theorem spec_c4_strategy_selection_witness :
    tranche_topic_results stNoFail argsOne [o1, o2] =
      [coalesce_topic_byBatch stNoFail "corporate-data" [(0, [[o1, o2]])] false false] ∧
    tranche_topic_results stNoFail argsAll [o1, o3] =
      [coalesce_topic_byPartition stNoFail "corporate-data" [(0, [[o1]]), (1, [[o3]])]
        false false] := by
  constructor
  · rw [(spec_c4_strategy_selection stNoFail argsOne [o1, o2]).1 (by decide)]
    decide
  · rw [(spec_c4_strategy_selection stNoFail argsAll [o1, o3]).2 (by decide)]
    decide

/-- A two-partition batched topic, one two-element batch per partition. -/
def btTwo : List (Nat × List (List ObjectSummary)) := [(0, [[o1, o2]]), (1, [[o3, o4]])]

/-- Claim C5 fails on the code: on a topic with two partitions and a store
that never raises, the byBatch strategy merges only the first partition's
batch (the Python loop executes `return futures` in its first iteration),
while the byPartition strategy merges the batches of both partitions, so
the two strategies do not coalesce the same set of batches. -/
theorem spec_c5_by_batch_drops_second_partition :
    merged_batches (coalesce_topic stNoFail "corporate-data" btTwo 0 false false
      false true).2 = [[o1, o2]] ∧
    merged_batches (coalesce_topic stNoFail "corporate-data" btTwo 0 false false
      false false).2 = [[o1, o2], [o3, o4]] ∧
    (coalesce_topic stNoFail "corporate-data" btTwo 0 false false false true).1 =
      some [UnitResult.one true] ∧
    (coalesce_topic stNoFail "corporate-data" btTwo 0 false false false false).1 =
      some [UnitResult.many [true], UnitResult.many [true]] := by
  decide

/-- Claim C9: aggregation is the logical AND of all batch outcomes.  With
`strict = true`, `[true, true]` aggregates to true and `[true, false]` to
false; with `strict = false` the nested per-partition outcome lists are
flattened first, so `[[true, true], [true, false]]` aggregates to false;
and in general the tranche verdict is true iff every batch outcome in the
tranche succeeded. -/
theorem spec_c9_aggregation :
    aggregate [UnitResult.one true, UnitResult.one true] true = true ∧
    aggregate [UnitResult.one true, UnitResult.one false] true = false ∧
    aggregate [UnitResult.many [true, true], UnitResult.many [true, false]] false =
      false ∧
    ∀ (results : List (Option (List UnitResult))) (strict : Bool),
      (successful_result results strict = true ↔
        ∀ r ∈ results, ∀ u ∈ r.getD [], ∀ b ∈ unit_bools u, b = true) := by
  refine ⟨by decide, by decide, by decide, ?_⟩
  intro results strict
  simp only [successful_result, aggregate, List.all_eq_true, List.mem_flatMap, id]
  constructor
  · intro h r hr u hu b hb
    exact h b ⟨u, ⟨r, hr, hu⟩, hb⟩
  · rintro h b ⟨u, ⟨r, hr, hu⟩, hb⟩
    exact h r hr u hu b hb

/-- Witness for C9: a fully successful two-partition tranche aggregates to
true. -/
theorem spec_c9_aggregation_witness :
    successful_result [some [UnitResult.many [true, true]],
      some [UnitResult.many [true]]] false = true :=
  (spec_c9_aggregation.2.2.2 [some [UnitResult.many [true, true]],
    some [UnitResult.many [true]]] false).mpr (by decide)

/-- Claim C1: the process exit status is the logical AND of the per-tranche
verdicts — exit code 0 exactly when every tranche's verdict is true, exit
code 1 exactly when some tranche's verdict is false. -/
theorem spec_c1_exit_status (st : StoreBehavior) (args : Args)
    (pages : List (List ObjectSummary)) :
    (main_exit_code st args pages = 0 ↔
      ∀ summaries ∈ pages, (coalesce_tranche st args summaries).1 = true) ∧
    (main_exit_code st args pages = 1 ↔
      ∃ summaries ∈ pages, (coalesce_tranche st args summaries).1 = false) := by
  by_cases hall : ∀ summaries ∈ pages, (coalesce_tranche st args summaries).1 = true
  · have hb : (pages.map fun summaries => (coalesce_tranche st args summaries).1).all
        id = true := by
      rw [List.all_eq_true]
      intro x hx
      obtain ⟨s, hs, rfl⟩ := List.mem_map.mp hx
      exact hall s hs
    constructor
    · simpa [main_exit_code, hb] using hall
    · simp only [main_exit_code, hb, if_true]
      constructor
      · intro h
        exact absurd h (by decide)
      · rintro ⟨s, hs, hfalse⟩
        rw [hall s hs] at hfalse
        exact absurd hfalse (by decide)
  · have hb : (pages.map fun summaries => (coalesce_tranche st args summaries).1).all
        id = false := by
      rw [Bool.eq_false_iff]
      intro hc
      rw [List.all_eq_true] at hc
      exact hall fun s hs => by simpa using hc _ (List.mem_map_of_mem _ hs)
    have hex : ∃ summaries ∈ pages, (coalesce_tranche st args summaries).1 = false := by
      have hmem : false ∈ pages.map fun summaries =>
          (coalesce_tranche st args summaries).1 := by
        simpa [List.all_eq_false] using hb
      obtain ⟨s, hs, hfs⟩ := List.mem_map.mp hmem
      exact ⟨s, hs, hfs⟩
    constructor
    · simp only [main_exit_code, hb, Bool.false_eq_true, if_false]
      constructor
      · intro h
        exact absurd h (by decide)
      · intro h
        exact absurd h hall
    · simp only [main_exit_code, hb, Bool.false_eq_true, if_false]
      exact ⟨fun _ => hex, fun _ => trivial⟩

/-- Witness for C1: one no-failure page exits 0; the same page against the
always-raising store exits 1. -/
theorem spec_c1_exit_status_witness :
    main_exit_code stNoFail argsAll [[o1, o2]] = 0 ∧
    main_exit_code stAllFail argsAll [[o1, o2]] = 1 :=
  ⟨(spec_c1_exit_status stNoFail argsAll [[o1, o2]]).1.mpr (by decide),
   (spec_c1_exit_status stAllFail argsAll [[o1, o2]]).2.mpr ⟨[o1, o2], by decide, by decide⟩⟩

/-- Claim C10: the parsed `--parallelise-batches` flag is dead
configuration: two runs whose `Args` differ only in `parallelise_batches`
make the same per-topic executor calls, produce the same tranche verdicts
and traces, and exit with the same status, because `coalesce_tranche`
derives the dispatch flag from `args.partition` alone. -/
theorem spec_c10_parallelise_flag_inert (st : StoreBehavior) (args : Args) (b : Bool)
    (pages : List (List ObjectSummary)) :
    main_exit_code st { args with parallelise_batches := b } pages =
      main_exit_code st args pages ∧
    ∀ summaries : List ObjectSummary,
      tranche_topic_results st { args with parallelise_batches := b } summaries =
        tranche_topic_results st args summaries ∧
      coalesce_tranche st { args with parallelise_batches := b } summaries =
        coalesce_tranche st args summaries := by
  cases args
  exact ⟨rfl, fun _ => ⟨rfl, rfl⟩⟩
